import Mathlib

/-!
Verification development for the physical-memory management core of gsai_os:
the frame table and slab allocator (`src/src/kernel/src/memory/slab.rs`) and
the auxiliary bump allocator (`src/kernel/src/memory/allocators/bump_allocator.rs`).

A frame cell is an `AtomicU16`; we model its value as a `Nat` (kept `< 2^16`
by the well-formedness predicate `FrameOk`).  Bit 0 is the peek latch, bit 1
the locked bit, bits 12 and up hold the frame-type discriminant.  The frame
table is a `List Nat` of cell values, and each allocator entry point is
embedded as a pure function from table to (result, updated table), following
the sequential (single caller, release build) semantics of the source: the
`debug_assert!`s are compiled out, `peek` on a cell whose peek bit is clear
succeeds immediately, and every `peek` is paired with an `unpeek` before the
call returns.
-/

set_option maxRecDepth 10000

namespace GsaiOS

/-- `align_up` (libcommon / efi_boot). Modelled from the spec: the helper
crates libcommon and efi_boot are not under src/; the spec uses `align_up`
as "round up to the next multiple of the (non-zero) alignment". -/
def alignUp (x a : Nat) : Nat := ((x + a - 1) / a) * a

/-- `align_down` (efi_boot). Modelled from the spec: round down to a
multiple of the alignment. -/
def alignDown (x a : Nat) : Nat := (x / a) * a

/-- `FrameType` (slab.rs lines 10-17). -/
inductive FrameType
  | Unusable
  | Generic
  | Reserved
  | BootReclaim
  | AcpiReclaim
  deriving DecidableEq, Repr, BEq

/-- `FrameType::as_u16`. -/
def FrameType.asU16 : FrameType → Nat
  | .Unusable => 0
  | .Generic => 1
  | .Reserved => 2
  | .BootReclaim => 3
  | .AcpiReclaim => 4

/-- `FrameType::from_u16`; `none` models the `unimplemented!()` panic on a
discriminant above 4. -/
def FrameType.fromU16 : Nat → Option FrameType
  | 0 => some .Unusable
  | 1 => some .Generic
  | 2 => some .Reserved
  | 3 => some .BootReclaim
  | 4 => some .AcpiReclaim
  | _ => none

namespace Frame

/-- `Frame::PEEKED_BIT = 1 << 0`. -/
def PEEKED_BIT : Nat := 1
/-- `Frame::LOCKED_BIT = 1 << 1`. -/
def LOCKED_BIT : Nat := 2
/-- `Frame::TYPE_SHIFT = 12`. -/
def TYPE_SHIFT : Nat := 12
/-- The mask of `fetch_and(!PEEKED_BIT)` on a `u16`: `!1 = 0xFFFE`. -/
def UNPEEK_MASK : Nat := 0xFFFE

/-- `Frame::lock`: `fetch_or(LOCKED_BIT)`. -/
def lock (v : Nat) : Nat := v ||| LOCKED_BIT

/-- `Frame::free`: `fetch_and(LOCKED_BIT)` exactly as written in the source —
the mask KEEPS the locked bit and clears every other bit (peek latch and
type field) of the cell. -/
def free (v : Nat) : Nat := v &&& LOCKED_BIT

/-- `Frame::peek` / a successful `Frame::try_peek`: `fetch_or(PEEKED_BIT)`.
In the source `peek` spins until the peek bit is clear; sequentially every
cell's peek bit is clear on entry (`FrameOk`), so the fetch_or models it. -/
def peek (v : Nat) : Nat := v ||| PEEKED_BIT

/-- `Frame::unpeek`: `fetch_and(!PEEKED_BIT)`. -/
def unpeek (v : Nat) : Nat := v &&& UNPEEK_MASK

/-- The `locked` component of `Frame::data`: bit 1 of the cell. -/
def dataLocked (v : Nat) : Bool := v.testBit 1

/-- The raw type discriminant read by `Frame::data`: `raw >> TYPE_SHIFT`. -/
def dataTypeRaw (v : Nat) : Nat := v >>> TYPE_SHIFT

end Frame

/-- A frame cell value as found between allocator calls: fits in a `u16`,
peek latch released, and a type discriminant `Frame::from_u16` can decode
(so `Frame::data` does not hit the `unimplemented!()` arm). -/
def FrameOk (v : Nat) : Prop :=
  v < 65536 ∧ v.testBit 0 = false ∧ v >>> 12 < 5

instance : DecidablePred FrameOk := fun v =>
  inferInstanceAs (Decidable (v < 65536 ∧ v.testBit 0 = false ∧ v >>> 12 < 5))

/-- Every cell of the table is quiescent and well formed. -/
def TableOk (t : List Nat) : Prop := ∀ v ∈ t, FrameOk v

instance : DecidablePred TableOk := fun t =>
  inferInstanceAs (Decidable (∀ v ∈ t, FrameOk v))

/-- The test of `lock_next`: `!locked && ty == FrameType::Generic`, read
from the peeked cell (peeking does not change bit 1 or the type bits). -/
def isFreeGeneric (v : Nat) : Bool :=
  !Frame.dataLocked v && (FrameType.fromU16 (Frame.dataTypeRaw v) == some .Generic)

/-- The test of `lock_next_many`'s reverse scan:
`*locked || *ty != FrameType::Generic`. -/
def disqualified (v : Nat) : Bool :=
  Frame.dataLocked v || !(FrameType.fromU16 (Frame.dataTypeRaw v) == some .Generic)

/-- Apply `f` to the cells with indices in `[base, base + count)`, leaving
the rest of the table unchanged (the in-place mutation of a window). -/
def mapRange (f : Nat → Nat) : Nat → Nat → List Nat → List Nat
  | _, _, [] => []
  | 0, 0, v :: rest => v :: rest
  | 0, c + 1, v :: rest => f v :: mapRange f 0 c rest
  | b + 1, c, v :: rest => v :: mapRange f b c rest

/-- The window `&table[start..start + count]` (as a list of cell values). -/
def window (table : List Nat) (start count : Nat) : List Nat :=
  (table.drop start).take count

/-- `sub_table.iter().enumerate().map(data).rev().find(disqualified)`:
the index of the LAST (highest-index) disqualifying frame of the window,
`none` when every frame of the window is unlocked and Generic. -/
def findLastDisq : List Nat → Option Nat
  | [] => none
  | v :: rest =>
    match findLastDisq rest with
    | some i => some (i + 1)
    | none => if disqualified v then some 0 else none

/-- The scan of `lock_next` (slab.rs lines 309-330) over the table suffix:
returns the relative index of the claimed frame (if any) and the updated
suffix.  Every visited cell is peeked and unpeeked; the claimed cell is
additionally locked in between. -/
def lockNextGo : List Nat → Option Nat × List Nat
  | [] => (none, [])
  | v :: rest =>
    if !v.testBit 0 && isFreeGeneric v then
      (some 0, Frame.unpeek (Frame.lock (Frame.peek v)) :: rest)
    else
      let r := lockNextGo rest
      (r.1.map (· + 1), Frame.unpeek (Frame.peek v) :: r.2)

/-- `SlabAllocator::lock_next`: the first frame that is unlocked and Generic
is locked and its address (`index * 0x1000`, `Address::new_truncate` being
the identity on in-range page-aligned values) returned; `none` models
`Err(AllocError)`. -/
def lockNext (table : List Nat) : Option Nat × List Nat :=
  let r := lockNextGo table
  (r.1.map (· * 0x1000), r.2)

/-- The `while` loop of `lock_next_many` (slab.rs lines 342-366), with
explicit fuel; `none` means the loop has not terminated within `fuel`
iterations.  One iteration: if `start < table.len() - count`, peek the
window, reverse-scan it for the last disqualifying frame; if one is found
at (window-relative) index `idx`, unpeek the window and continue from
`align_up(idx + 1, frame_alignment)`; otherwise lock and unpeek the window
and return its base address.  When the guard fails the loop falls through
to `Err(AllocError)`, modelled as `some (none, table)`. -/
def lockNextManyGo (count frameAlignment : Nat) :
    Nat → Nat → List Nat → Option (Option Nat × List Nat)
  | 0, _, _ => none
  | fuel + 1, start, table =>
    if start < table.length - count then
      match findLastDisq (window table start count) with
      | some idx =>
          lockNextManyGo count frameAlignment fuel (alignUp (idx + 1) frameAlignment)
            (mapRange (fun v => Frame.unpeek (Frame.peek v)) start count table)
      | none =>
          some (some (start * 0x1000),
            mapRange (fun v => Frame.unpeek (Frame.lock (Frame.peek v))) start count table)
    else
      some (none, table)

/-- `SlabAllocator::lock_next_many` (slab.rs lines 332-370).
`frame_alignment = NonZeroUsize::new(alignment / 0x1000).unwrap_or(1)`. -/
def lockNextMany (table : List Nat) (count alignment fuel : Nat) :
    Option (Option Nat × List Nat) :=
  lockNextManyGo count (max (alignment / 0x1000) 1) fuel 0 table

/-- `SlabAllocator::lock` (slab.rs lines 372-389).  `true` models `Ok(())`,
`false` models `Err(AllocError)`; `Address::index()` is `addr / 0x1000`
(modelled from the spec: index == address divided by the page size). -/
def lock (table : List Nat) (addr : Nat) : Bool × List Nat :=
  match table.get? (addr / 0x1000) with
  | none => (false, table)
  | some v =>
    if !Frame.dataLocked v then
      (true, table.set (addr / 0x1000) (Frame.unpeek (Frame.lock (Frame.peek v))))
    else
      (false, table.set (addr / 0x1000) (Frame.unpeek (Frame.peek v)))

/-- `SlabAllocator::lock_many` (slab.rs lines 391-407).  The source slices
`&table[base..base + count]` without a bounds check, so a range extending
past the table panics: modelled by the outer `Option`, `none` = panic.
Within bounds: peek the whole range, verify every frame unlocked, then
either lock and unpeek all (`Ok`), or just unpeek all (`Err`). -/
def lockMany (table : List Nat) (baseIndex count : Nat) :
    Option (Bool × List Nat) :=
  if baseIndex + count ≤ table.length then
    some
      (if (window table baseIndex count).all (fun v => !Frame.dataLocked v) then
        (true, mapRange (fun v => Frame.unpeek (Frame.lock (Frame.peek v))) baseIndex count table)
      else
        (false, mapRange (fun v => Frame.unpeek (Frame.peek v)) baseIndex count table))
  else
    none

/-- `SlabAllocator::free` (slab.rs lines 409-430): peek, and if the frame is
locked, run `Frame::free` and unpeek (`Ok`), else unpeek (`Err`). -/
def free (table : List Nat) (addr : Nat) : Bool × List Nat :=
  match table.get? (addr / 0x1000) with
  | none => (false, table)
  | some v =>
    if Frame.dataLocked v then
      (true, table.set (addr / 0x1000) (Frame.unpeek (Frame.free (Frame.peek v))))
    else
      (false, table.set (addr / 0x1000) (Frame.unpeek (Frame.peek v)))

/-- Where `SlabAllocator::allocate` (slab.rs lines 249-291) routes a
`(size, align)` request. -/
inductive AllocRoute
  | slab64
  | slab128
  | slab256
  | slab512
  | pmmOne
  | pmmMany (frames : Nat) (alignment : Nat)
  deriving DecidableEq, Repr

/-- The branch chain of `SlabAllocator::allocate`.  The third guard reads
`layout.size() <= 246` in the source (sic), and the multi-frame branch
requests `layout.size() / 0x1000` frames (integer division). -/
def allocateRoute (size align : Nat) : AllocRoute :=
  if align ≤ 64 ∧ size ≤ 64 then .slab64
  else if align ≤ 128 ∧ size ≤ 128 then .slab128
  else if align ≤ 256 ∧ size ≤ 246 then .slab256
  else if align ≤ 512 ∧ size ≤ 512 then .slab512
  else if align ≤ 4096 ∧ size ≤ 4096 then .pmmOne
  else .pmmMany (size / 0x1000) align

/-- Where `SlabAllocator::deallocate` (slab.rs lines 293-305) routes a
`(size, align)` request; `panicked` models the `todo!("don't leak memory")`
arm. -/
inductive DeallocRoute
  | slab64
  | slab128
  | slab256
  | slab512
  | panicked
  deriving DecidableEq, Repr

/-- The branch chain of `SlabAllocator::deallocate` (same guards as
`allocate`, including the `<= 246` third guard). -/
def deallocateRoute (size align : Nat) : DeallocRoute :=
  if align ≤ 64 ∧ size ≤ 64 then .slab64
  else if align ≤ 128 ∧ size ≤ 128 then .slab128
  else if align ≤ 256 ∧ size ≤ 246 then .slab256
  else if align ≤ 512 ∧ size ≤ 512 then .slab512
  else .panicked

/-- `trailing_zeros` of a `w`-bit unsigned integer (`w` for the zero value,
as in Rust). -/
def tzeros (w b : Nat) : Nat :=
  match w with
  | 0 => 0
  | w' + 1 => if b % 2 = 1 then 0 else 1 + tzeros w' (b / 2)

/-- The slab-list scan of the `slab_allocate!` macro (slab.rs lines 200-229)
for one size class: find the first `(memory_ptr, allocations)` slab with
`allocations.trailing_zeros() > 0`, claim bit `trailing_zeros() - 1` and
return `memory_ptr + bit * slab_size`.  `w` is the bit width of the class's
bitmap integer (64/32/16/8), which equals `0x1000 / slab_size`. -/
def slabAllocGo (w size : Nat) : List (Nat × Nat) → Option (Nat × List (Nat × Nat))
  | [] => none
  | (ptr, bm) :: rest =>
    if tzeros w bm > 0 then
      some (ptr + (tzeros w bm - 1) * size, (ptr, bm ||| (1 <<< (tzeros w bm - 1))) :: rest)
    else
      (slabAllocGo w size rest).map (fun r => (r.1, (ptr, bm) :: r.2))

/-- One `slab_allocate!` call: scan the slab list; if no slab has room, take
the next fresh frame (the `lock_next()` fallback), push a new slab whose
bitmap pre-claims bit `w - 1` (`1 << ((0x1000 / slab_size) - 1)`), and
return the fresh slab's base pointer.  `none` models an exhausted PMM. -/
def slabAllocStep (w size : Nat) (slabs : List (Nat × Nat)) (fresh : List Nat) :
    Option (Nat × List (Nat × Nat) × List Nat) :=
  match slabAllocGo w size slabs with
  | some r => some (r.1, r.2, fresh)
  | none =>
    match fresh with
    | f :: rest => some (f, slabs ++ [(f, 1 <<< (w - 1))], rest)
    | [] => none

/-- Run `n` consecutive `slab_allocate!` calls (no deallocations), returning
the addresses handed out, in call order, and the final slab list. -/
def slabAllocN (w size : Nat) (slabs : List (Nat × Nat)) (fresh : List Nat) :
    Nat → List Nat × List (Nat × Nat)
  | 0 => ([], slabs)
  | n + 1 =>
    match slabAllocStep w size slabs fresh with
    | none => ([], slabs)
    | some (a, slabs', fresh') =>
      let r := slabAllocN w size slabs' fresh' n
      (a :: r.1, r.2)

/-- `(start..stop).step_by(0x1000)` as a list of addresses. -/
def stepBy4096 (start stop : Nat) : List Nat :=
  (List.range ((stop - start + 4095) / 4096)).map (fun i => start + i * 4096)

/-- `BumpAllocator::alloc` (bump_allocator.rs lines 24-43): returns the
pre-advance bottom address, the new bottom cursor
(`bottom + align_up(size, 0x1000)`), and the page addresses mapped by the
loop, which runs over `(bottom..align_down(bottom + size, 0x1000))`
stepping one page at a time. -/
def bumpAlloc (bottom size : Nat) : Nat × Nat × List Nat :=
  (bottom, bottom + alignUp size 4096, stepBy4096 bottom (alignDown (bottom + size) 4096))

/-- `BumpAllocator::dealloc` (bump_allocator.rs line 45): a no-op on the
cursor. -/
def bumpDealloc (bottom : Nat) (_addr _size : Nat) : Nat := bottom

/-- The index of the lowest unlocked Generic frame of the table — the frame
`lock_next` is specified to return. -/
def firstFreeGeneric : List Nat → Option Nat
  | [] => none
  | v :: rest => if isFreeGeneric v then some 0 else (firstFreeGeneric rest).map (· + 1)

/-! ### Helper lemmas -/

theorem testBit_one_small : ∀ i < 16, Nat.testBit 1 i = decide (i = 0) := by decide

theorem testBit_two_small : ∀ i < 16, Nat.testBit 2 i = decide (i = 1) := by decide

theorem testBit_mask_small : ∀ i < 16, Nat.testBit 65534 i = decide (0 < i) := by decide

theorem testBit_high_false {v i : Nat} (h1 : v < 65536) (hi : 16 ≤ i) :
    v.testBit i = false := by
  refine Nat.testBit_lt_two_pow (lt_of_lt_of_le h1 ?_)
  calc (65536 : Nat) = 2 ^ 16 := by norm_num
    _ ≤ 2 ^ i := Nat.pow_le_pow_right (by norm_num) hi

/-- Peeking then unpeeking a quiescent cell restores its value. -/
theorem unpeek_peek_eq (v : Nat) (h1 : v < 65536) (h2 : v.testBit 0 = false) :
    Frame.unpeek (Frame.peek v) = v := by
  show (v ||| 1) &&& 65534 = v
  apply Nat.eq_of_testBit_eq
  intro i
  rw [Nat.testBit_and, Nat.testBit_or]
  by_cases hi : i < 16
  · by_cases h0 : i = 0
    · subst h0
      rw [h2, testBit_one_small 0 (by norm_num), testBit_mask_small 0 (by norm_num)]
      rfl
    · rw [testBit_one_small i hi, testBit_mask_small i hi,
        decide_eq_false h0, decide_eq_true (Nat.pos_of_ne_zero h0)]
      simp
  · rw [testBit_high_false h1 (le_of_not_lt hi),
      testBit_high_false (show (1:Nat) < 65536 by norm_num) (le_of_not_lt hi),
      testBit_high_false (show (65534:Nat) < 65536 by norm_num) (le_of_not_lt hi)]
    rfl

/-- Peek, lock, unpeek on a quiescent cell nets to setting the locked bit. -/
theorem unpeek_lock_peek_eq (v : Nat) (h1 : v < 65536) (h2 : v.testBit 0 = false) :
    Frame.unpeek (Frame.lock (Frame.peek v)) = v ||| 2 := by
  show ((v ||| 1) ||| 2) &&& 65534 = v ||| 2
  apply Nat.eq_of_testBit_eq
  intro i
  rw [Nat.testBit_and, Nat.testBit_or, Nat.testBit_or, Nat.testBit_or]
  by_cases hi : i < 16
  · by_cases h0 : i = 0
    · subst h0
      rw [h2, testBit_one_small 0 (by norm_num), testBit_two_small 0 (by norm_num),
        testBit_mask_small 0 (by norm_num)]
      rfl
    · rw [testBit_one_small i hi, testBit_mask_small i hi, decide_eq_false h0,
        decide_eq_true (Nat.pos_of_ne_zero h0)]
      simp
  · rw [testBit_high_false h1 (le_of_not_lt hi),
      testBit_high_false (show (1:Nat) < 65536 by norm_num) (le_of_not_lt hi),
      testBit_high_false (show (2:Nat) < 65536 by norm_num) (le_of_not_lt hi),
      testBit_high_false (show (65534:Nat) < 65536 by norm_num) (le_of_not_lt hi)]
    rfl

theorem mapRange_zero_zero (f : Nat → Nat) (t : List Nat) : mapRange f 0 0 t = t := by
  cases t <;> rfl

theorem mapRange_eq_self (f : Nat → Nat) (t : List Nat) (h : ∀ v ∈ t, f v = v) :
    ∀ b c, mapRange f b c t = t := by
  induction t with
  | nil => intro b c; cases b <;> cases c <;> rfl
  | cons v rest ih =>
    intro b c
    have hv := h v (List.mem_cons_self _ _)
    have hrest : ∀ w ∈ rest, f w = w := fun w hw => h w (List.mem_cons_of_mem _ hw)
    match b, c with
    | 0, 0 => rfl
    | 0, c + 1 => show f v :: mapRange f 0 c rest = v :: rest; rw [hv, ih hrest]
    | b + 1, c => show v :: mapRange f b c rest = v :: rest; rw [ih hrest]

theorem mapRange_congr (f g : Nat → Nat) (t : List Nat) (h : ∀ v ∈ t, f v = g v) :
    ∀ b c, mapRange f b c t = mapRange g b c t := by
  induction t with
  | nil => intro b c; cases b <;> cases c <;> rfl
  | cons v rest ih =>
    intro b c
    have hv := h v (List.mem_cons_self _ _)
    have hrest : ∀ w ∈ rest, f w = g w := fun w hw => h w (List.mem_cons_of_mem _ hw)
    match b, c with
    | 0, 0 => rfl
    | 0, c + 1 =>
      show f v :: mapRange f 0 c rest = g v :: mapRange g 0 c rest
      rw [hv, ih hrest]
    | b + 1, c =>
      show v :: mapRange f b c rest = v :: mapRange g b c rest
      rw [ih hrest]

theorem isFreeGeneric_of_not_disq (v : Nat) (h : disqualified v = false) :
    isFreeGeneric v = true := by
  unfold disqualified at h
  unfold isFreeGeneric
  cases hL : Frame.dataLocked v <;>
    cases hG : (FrameType.fromU16 (Frame.dataTypeRaw v) == some .Generic) <;>
      simp [hL, hG] at h ⊢

theorem findLastDisq_eq_none {w : List Nat} (h : findLastDisq w = none) :
    ∀ v ∈ w, disqualified v = false := by
  induction w with
  | nil => intro v hv; cases hv
  | cons x rest ih =>
    intro v hv
    unfold findLastDisq at h
    cases hr : findLastDisq rest with
    | some i => rw [hr] at h; cases h
    | none =>
      rw [hr] at h
      by_cases hd : disqualified x = true
      · rw [hd] at h; cases h
      · have hd' : disqualified x = false := by
          revert hd; cases disqualified x <;> simp
        rcases List.mem_cons.mp hv with rfl | hv'
        · exact hd'
        · exact ih hr v hv'

/-- Characterisation of the `lock_next` scan on a quiescent table: it claims
exactly the first unlocked Generic frame, and only that cell changes. -/
theorem lockNextGo_spec (t : List Nat) (ht : TableOk t) :
    (lockNextGo t).1 = firstFreeGeneric t ∧
    (lockNextGo t).2 = (match firstFreeGeneric t with
      | some i => mapRange (· ||| 2) i 1 t
      | none => t) := by
  induction t with
  | nil => exact ⟨rfl, rfl⟩
  | cons v rest ih =>
    have hv : FrameOk v := ht v (List.mem_cons_self _ _)
    have hrest : TableOk rest := fun w hw => ht w (List.mem_cons_of_mem _ hw)
    obtain ⟨ih1, ih2⟩ := ih hrest
    by_cases hfg : isFreeGeneric v = true
    · have hcond : (!v.testBit 0 && isFreeGeneric v) = true := by
        rw [hv.2.1, hfg]; rfl
      constructor
      · show (if (!v.testBit 0 && isFreeGeneric v) = true then _ else _ : Option Nat × List Nat).1 = _
        rw [if_pos hcond]
        unfold firstFreeGeneric
        rw [if_pos hfg]
      · show (if (!v.testBit 0 && isFreeGeneric v) = true then _ else _ : Option Nat × List Nat).2 = _
        rw [if_pos hcond]
        unfold firstFreeGeneric
        rw [if_pos hfg]
        show Frame.unpeek (Frame.lock (Frame.peek v)) :: rest = mapRange (· ||| 2) 0 1 (v :: rest)
        rw [unpeek_lock_peek_eq v hv.1 hv.2.1]
        show (v ||| 2) :: rest = (v ||| 2) :: mapRange (· ||| 2) 0 0 rest
        rw [mapRange_zero_zero]
    · have hfg' : isFreeGeneric v = false := by
        revert hfg; cases isFreeGeneric v <;> simp
      have hcond : (!v.testBit 0 && isFreeGeneric v) = false := by
        rw [hfg']; cases (!v.testBit 0) <;> rfl
      have hne : ¬((!v.testBit 0 && isFreeGeneric v) = true) := by rw [hcond]; simp
      constructor
      · show (if (!v.testBit 0 && isFreeGeneric v) = true then _ else _ : Option Nat × List Nat).1 = _
        rw [if_neg hne]
        unfold firstFreeGeneric
        rw [if_neg (by rw [hfg']; simp)]
        show (lockNextGo rest).1.map (· + 1) = (firstFreeGeneric rest).map (· + 1)
        rw [ih1]
      · show (if (!v.testBit 0 && isFreeGeneric v) = true then _ else _ : Option Nat × List Nat).2 = _
        rw [if_neg hne]
        unfold firstFreeGeneric
        rw [if_neg (by rw [hfg']; simp)]
        show Frame.unpeek (Frame.peek v) :: (lockNextGo rest).2 = _
        rw [unpeek_peek_eq v hv.1 hv.2.1, ih2]
        cases hr : firstFreeGeneric rest with
        | none => simp [hr]
        | some i =>
          simp only [hr, Option.map_some']
          show v :: mapRange (· ||| 2) i 1 rest = mapRange (· ||| 2) (i + 1) 1 (v :: rest)
          rfl

/-- Any successful `lock_next_many` on a quiescent table returns the base of
a window every frame of which is unlocked and Generic. -/
theorem lockNextManyGo_success (count fa : Nat) (t : List Nat) (ht : TableOk t) :
    ∀ fuel start addr t',
      lockNextManyGo count fa fuel start t = some (some addr, t') →
      ∃ s, addr = s * 0x1000 ∧ ∀ v ∈ window t s count, isFreeGeneric v = true := by
  intro fuel
  induction fuel with
  | zero => intro start addr t' h; simp [lockNextManyGo] at h
  | succ n ih =>
    intro start addr t' h
    unfold lockNextManyGo at h
    split at h
    · cases hfd : findLastDisq (window t start count) with
      | some idx =>
        simp only [hfd] at h
        rw [mapRange_eq_self _ t
          (fun v hv => unpeek_peek_eq v (ht v hv).1 (ht v hv).2.1) start count] at h
        exact ih (alignUp (idx + 1) fa) addr t' h
      | none =>
        simp only [hfd, Option.some.injEq, Prod.mk.injEq] at h
        refine ⟨start, h.1.symm, ?_⟩
        intro v hv
        exact isFreeGeneric_of_not_disq v (findLastDisq_eq_none hfd v hv)
    · simp at h

/-- Every start index visited by the `lock_next_many` loop is a multiple of
`frame_alignment` (the initial 0 is, and `align_up` only produces
multiples), so a successful result address is a multiple of
`0x1000 * frame_alignment`. -/
theorem lockNextManyGo_dvd (count fa : Nat) :
    ∀ fuel start (t : List Nat) addr t', fa ∣ start →
      lockNextManyGo count fa fuel start t = some (some addr, t') →
      (0x1000 * fa) ∣ addr := by
  intro fuel
  induction fuel with
  | zero => intro start t addr t' _ h; simp [lockNextManyGo] at h
  | succ n ih =>
    intro start t addr t' hdvd h
    unfold lockNextManyGo at h
    split at h
    · cases hfd : findLastDisq (window t start count) with
      | some idx =>
        simp only [hfd] at h
        refine ih (alignUp (idx + 1) fa) _ addr t' ?_ h
        show fa ∣ (idx + 1 + fa - 1) / fa * fa
        exact dvd_mul_left fa _
      | none =>
        simp only [hfd, Option.some.injEq, Prod.mk.injEq] at h
        obtain ⟨k, rfl⟩ := hdvd
        rw [← h.1]
        exact ⟨k, by ring⟩
    · simp at h

/-! ### Claim theorems -/

/-- C1: On a table of 10 unlocked Generic frames, `lock_next_many(3, 4096)`
returns the address of frame 0 (locking frames 0-2) and `lock` of frame 5
succeeds; but the second `lock_next_many(3, 4096)` does NOT return frame
6's address — because the restart index is computed from the
window-RELATIVE index of the disqualifying frame, the loop revisits the
window starting at index 3 forever, never terminating (for every fuel
bound the loop is still running). -/
theorem scenario_second_lock_next_many_never_returns :
    lockNextMany (List.replicate 10 4096) 3 4096 1 =
      some (some 0, [4098, 4098, 4098, 4096, 4096, 4096, 4096, 4096, 4096, 4096]) ∧
    lock [4098, 4098, 4098, 4096, 4096, 4096, 4096, 4096, 4096, 4096] 20480 =
      (true, [4098, 4098, 4098, 4096, 4096, 4098, 4096, 4096, 4096, 4096]) ∧
    ∀ fuel,
      lockNextMany [4098, 4098, 4098, 4096, 4096, 4098, 4096, 4096, 4096, 4096] 3 4096 fuel =
        none := by
  refine ⟨by decide, by decide, ?_⟩
  have stuck : ∀ f,
      lockNextManyGo 3 1 f 3 [4098, 4098, 4098, 4096, 4096, 4098, 4096, 4096, 4096, 4096] =
        none := by
    intro f
    induction f with
    | zero => rfl
    | succ n ih => exact ih
  intro fuel
  cases fuel with
  | zero => rfl
  | succ n => exact stuck n

/-- C2: `lock_next_many` does NOT terminate for every table: the source
jumps to `align_up(relative_index + 1, alignment)` where `relative_index`
is the index of the disqualifying frame WITHIN the window, not in the
table, so the start index does not strictly advance.  On a 7-frame Generic
table with frames 2 and 5 locked, a request for 3 frames loops forever
(the loop is still running after every fuel bound). -/
theorem lock_next_many_does_not_terminate :
    ∀ fuel,
      lockNextMany [4096, 4096, 4098, 4096, 4096, 4098, 4096] 3 4096 fuel = none := by
  have stuck : ∀ f,
      lockNextManyGo 3 1 f 3 [4096, 4096, 4098, 4096, 4096, 4098, 4096] = none := by
    intro f
    induction f with
    | zero => rfl
    | succ n ih => exact ih
  intro fuel
  cases fuel with
  | zero => rfl
  | succ n => exact stuck n

/-- C3: the lock/free round trip fails in the source.  On a one-frame table
holding an unlocked Generic frame (cell value 4096 = Generic << 12),
`lock` succeeds; `free` returns Ok but, because `Frame::free` executes
`fetch_and(LOCKED_BIT)` (keeping bit 1 and clearing everything else), the
cell ends at raw value 2: the locked bit is still set and the type field
has been wiped from Generic to Unusable; the subsequent `lock` fails. -/
theorem free_keeps_locked_bit_and_wipes_type :
    FrameType.fromU16 (Frame.dataTypeRaw 4096) = some .Generic ∧
    lock [4096] 0 = (true, [4098]) ∧
    free [4098] 0 = (true, [2]) ∧
    Frame.dataLocked 2 = true ∧
    FrameType.fromU16 (Frame.dataTypeRaw 2) = some .Unusable ∧
    lock [2] 0 = (false, [2]) := by
  decide

/-- C4 counterexample: a `lock_many` whose range extends past the table
does not return `AllocError` — the source slices `&table[base..base+count]`
unchecked, which panics (modelled by `none`).  Here: a 2-frame table,
base 0, count 5. -/
theorem lock_many_out_of_table_panics :
    lockMany [4096, 4096] 0 5 = none := by
  decide

/-- C4 (amended): for ranges that lie inside the table, `lock_many` is
all-or-nothing on a quiescent table: if every targeted frame is unlocked it
locks exactly the `count` frames from `base` (setting bit 1 of each) and
returns Ok; if any targeted frame is locked it returns `AllocError` and
every cell is unchanged. -/
theorem lock_many_all_or_nothing (table : List Nat) (ht : TableOk table)
    (base count : Nat) (hin : base + count ≤ table.length) :
    ((window table base count).all (fun v => !Frame.dataLocked v) = true →
      lockMany table base count = some (true, mapRange (· ||| 2) base count table)) ∧
    ((window table base count).all (fun v => !Frame.dataLocked v) = false →
      lockMany table base count = some (false, table)) := by
  constructor
  · intro hall
    unfold lockMany
    rw [if_pos hin, if_pos hall,
      mapRange_congr _ _ table
        (fun v hv => unpeek_lock_peek_eq v (ht v hv).1 (ht v hv).2.1) base count]
  · intro hall
    unfold lockMany
    rw [if_pos hin, if_neg (by rw [hall]; simp),
      mapRange_eq_self _ table
        (fun v hv => unpeek_peek_eq v (ht v hv).1 (ht v hv).2.1) base count]

theorem lock_many_all_or_nothing_witness :
    lockMany [4098, 4096] 0 2 = some (false, [4098, 4096]) :=
  (lock_many_all_or_nothing [4098, 4096] (by decide) 0 2 (by decide)).2 (by decide)

/-- C5: the `allocate` routing evaluated at the claimed inputs.  Size 50
align 8 does go to the 64-byte class and size 600 to a single frame via
`lock_next`; but size 250 align 8 goes to the 512-byte class (the source's
third guard reads `layout.size() <= 246`, a typo for 256), and size 9000
asks `lock_next_many` for `9000 / 0x1000 = 2` frames (integer division,
not the ceiling 3). -/
theorem allocate_routing_at_claimed_inputs :
    allocateRoute 50 8 = .slab64 ∧
    allocateRoute 250 8 = .slab512 ∧
    allocateRoute 600 8 = .pmmOne ∧
    allocateRoute 9000 4096 = .pmmMany 2 4096 := by
  decide

/-- C6: on a quiescent well-formed table, `lock_next` returns the address
(index * 0x1000) of the LOWEST-index unlocked Generic frame, sets exactly
that frame's locked bit, and returns `AllocError` when no such frame
exists; and any successful `lock_next_many` returns the base of a window
every frame of which was unlocked and Generic — frames of other types are
never returned by either function. -/
theorem lock_next_first_fit_and_type_exclusion (table : List Nat) (ht : TableOk table) :
    (lockNext table).1 = (firstFreeGeneric table).map (· * 0x1000) ∧
    (lockNext table).2 = (match firstFreeGeneric table with
      | some i => mapRange (· ||| 2) i 1 table
      | none => table) ∧
    ∀ count alignment fuel addr t',
      lockNextMany table count alignment fuel = some (some addr, t') →
      ∃ s, addr = s * 0x1000 ∧ ∀ v ∈ window table s count, isFreeGeneric v = true := by
  obtain ⟨h1, h2⟩ := lockNextGo_spec table ht
  refine ⟨?_, ?_, ?_⟩
  · show (lockNextGo table).1.map (· * 0x1000) = _
    rw [h1]
  · show (lockNextGo table).2 = _
    rw [h2]
  · intro count alignment fuel addr t' h
    exact lockNextManyGo_success count (max (alignment / 0x1000) 1) table ht fuel 0 addr t' h

theorem lock_next_first_fit_and_type_exclusion_witness :
    (lockNext [4098, 8192, 4096]).1 = some 8192 := by
  have h := (lock_next_first_fit_and_type_exclusion [4098, 8192, 4096] (by decide)).1
  rw [h]
  decide

/-- C7: every successful `lock_next_many(count, alignment)` with a
power-of-two alignment returns an address divisible by the alignment: the
loop only ever visits start indices that are multiples of
`frame_alignment = max(alignment / 0x1000, 1)`, and an alignment below one
page divides the page size. -/
theorem lock_next_many_alignment_contract (table : List Nat)
    (count alignment fuel k addr : Nat) (t' : List Nat)
    (hpow : alignment = 2 ^ k)
    (h : lockNextMany table count alignment fuel = some (some addr, t')) :
    alignment ∣ addr := by
  unfold lockNextMany at h
  have hd := lockNextManyGo_dvd count (max (alignment / 0x1000) 1) fuel 0 table addr t'
    (dvd_zero _) h
  subst hpow
  by_cases hk : 12 ≤ k
  · have h1 : (2 : Nat) ^ k / 0x1000 = 2 ^ (k - 12) := by
      rw [show (0x1000 : Nat) = 2 ^ 12 by norm_num, Nat.pow_div hk (by norm_num)]
    have h2 : (1 : Nat) ≤ 2 ^ (k - 12) := Nat.one_le_two_pow
    rw [h1, Nat.max_eq_left h2] at hd
    have h3 : (0x1000 : Nat) * 2 ^ (k - 12) = 2 ^ k := by
      rw [show (0x1000 : Nat) = 2 ^ 12 by norm_num, ← pow_add]
      congr 1
      omega
    rwa [h3] at hd
  · push_neg at hk
    have h1 : (2 : Nat) ^ k / 0x1000 = 0 := by
      refine Nat.div_eq_of_lt ?_
      calc (2 : Nat) ^ k < 2 ^ 12 := Nat.pow_lt_pow_right (by norm_num) hk
        _ = 0x1000 := by norm_num
    rw [h1, show max 0 1 = 1 from rfl, mul_one] at hd
    calc (2 : Nat) ^ k ∣ 2 ^ 12 := pow_dvd_pow 2 (le_of_lt hk)
      _ = 0x1000 := by norm_num
      _ ∣ addr := hd

theorem lock_next_many_alignment_contract_witness : (4096 : Nat) ∣ 4096 :=
  lock_next_many_alignment_contract [4098, 4096, 4096, 4096] 1 4096 2 12 4096
    [4098, 4098, 4096, 4096] (by norm_num) (by decide)

/-- C8: `BumpAllocator::alloc` evaluated at concrete inputs.  It does
return the pre-advance bottom and advance the cursor by
`align_up(size, 0x1000)`, but the mapping loop runs only up to
`align_down(bottom + size, 0x1000)`: `alloc(100)` from bottom 0x1000 maps
NO page at all (the claim requires the page at 0x1000), and `alloc(5000)`
maps one page where the claim requires two — the tail of
`[bottom, bottom + size)` is left unbacked.  `dealloc` changes nothing. -/
theorem bump_alloc_maps_align_down_not_align_up :
    bumpAlloc 4096 100 = (4096, 8192, []) ∧
    bumpAlloc 4096 5000 = (4096, 12288, [4096]) ∧
    bumpDealloc 12288 4096 100 = 12288 := by
  decide

/-- C9: slot addresses are NOT pairwise distinct within a class.  In the
512-byte class (8-slot bitmaps), 8 consecutive allocations starting from
an empty class with one fresh frame at base 0 return base + 0 twice (the
1st and the 8th), with no deallocation in between: the fresh slab
pre-claims bit 7 yet hands out slot 0, and the scan claims
`trailing_zeros - 1` down to bit 0, which again maps to slot 0. -/
theorem slab_allocate_hands_out_duplicate_slot :
    (slabAllocN 8 512 [] [0] 8).1 = [0, 3072, 2560, 2048, 1536, 1024, 512, 0] ∧
    ¬ (slabAllocN 8 512 [] [0] 8).1.Nodup := by
  decide

/-- C10: every `deallocate` whose layout has size above 512 or alignment
above 512 falls through all four slab-class guards into the
`todo!("don't leak memory")` arm and panics — no PMM-backed allocation can
be released. -/
theorem deallocate_large_layout_panics (size align : Nat)
    (h : 512 < size ∨ 512 < align) :
    deallocateRoute size align = .panicked := by
  unfold deallocateRoute
  rcases h with h | h <;>
    rw [if_neg (by omega), if_neg (by omega), if_neg (by omega), if_neg (by omega)]

theorem deallocate_large_layout_panics_witness :
    deallocateRoute 600 8 = .panicked :=
  deallocate_large_layout_panics 600 8 (Or.inl (by norm_num))

end GsaiOS

